import Mathlib

/-!
# Verification of the ENGAGE-HF patient-data export service

This file gives a shallow embedding, in Lean 4, of the export service
implemented in `DefaultExportService` (delimited-table encoder, questionnaire
leaf-item collection, per-category projectors, and the zip-archive
orchestration), and proves properties of that embedding.

Modelling conventions:
* JavaScript strings are Lean `String`s; a JS value that may be `undefined`
  is modelled as `Option`.
* JS runtime records are modelled with every field optional, since a
  document deserialized at runtime may lack any field regardless of its
  TypeScript type; a guarded access (`?.`, `?? ""`) maps to `Option.bind` /
  `Option.getD`, a plain property access maps to the `Option` value itself,
  and a method call (`.toString()`, `.toISOString()`, `.localize()`) on a
  possibly-absent value is fallible (it throws a TypeError when the value
  is `undefined`), modelled with `Except`.
* JS numbers appearing in exported records are modelled as `Nat`; the
  claims under study never depend on the numeric rendering itself, only on
  whether a value is present and on the surrounding string plumbing.
* JS `Date` values are modelled as an opaque wrapper around their
  `toISOString()` rendering.
* Promises are modelled by explicit `Except` values: a rejected promise is
  `.error`, a fulfilled one `.ok`.  `Promise.all` is fail-fast join; the
  model resolves the race between simultaneous failures by taking the
  first in array order, which is irrelevant to every property proved here
  (they only ever need "some error").
-/

namespace ExportService

/-! ## Delimited-row encoder (source: `createCsvBuffer` / `escapeCsvField`) -/

/-- Embeds the JS regex test `/^[=+\-@]/.test(field)`: does the string start
with one of the four spreadsheet formula characters? -/
def startsWithFormulaChar (s : String) : Bool :=
  match s.data with
  | [] => false
  | c :: _ => c = '=' || c = '+' || c = '-' || c = '@'

/-- Embeds the JS regex test `/[;\n"]/.test(field)`: does the string contain
a semicolon, newline or double quote? -/
def isSpecialChar (c : Char) : Bool :=
  c = ';' || c = '\n' || c = '"'

/-- A string contains one of the three special characters. -/
def containsSpecialChar (s : String) : Bool :=
  s.data.any isSpecialChar

/-- Embeds `field.replace(/"/g, '""')` at the character level: every double
quote is doubled, all other characters are kept. -/
def doubleQuotesChars : List Char → List Char
  | [] => []
  | c :: cs =>
    if c = '"' then '"' :: '"' :: doubleQuotesChars cs
    else c :: doubleQuotesChars cs

/-- Embeds the source's `escapeCsvField` (nested inside `createCsvBuffer`):

```
function escapeCsvField(field: string): string {
  if (/^[=+\-@]/.test(field)) { field = "'" + field; }
  if (/[;\n"]/.test(field)) { return `"${field.replace(/"/g, '""')}"`; }
  return field;
}
``` -/
def escapeCsvField (field : String) : String :=
  let field := if startsWithFormulaChar field then "'" ++ field else field
  if containsSpecialChar field then
    "\"" ++ String.mk (doubleQuotesChars field.data) ++ "\""
  else field

/-- Embeds JS `Array.prototype.join(sep)` on an array of strings. -/
def joinSep (sep : String) : List String → String
  | [] => ""
  | [x] => x
  | x :: y :: rest => x ++ sep ++ joinSep sep (y :: rest)

/-- One encoded table line: `cells.map(escapeCsvField).join(";")`. -/
def csvLine (cells : List String) : String :=
  joinSep ";" (cells.map escapeCsvField)

/-- Embeds the source's `createCsvBuffer` for a projection that is total and
returns definite strings (the TypeScript-level contract `row: (T) => string[]`):

```
const string = [
  headers.map(escapeCsvField).join(";"),
  ...values.map((item) => row(item).map(escapeCsvField).join(";")),
].join("\n");
return Buffer.from(string);
```

The returned `Buffer` is identified with the string it holds. -/
def createCsvString {α : Type} (headers : List String) (values : List α)
    (row : α → List String) : String :=
  joinSep "\n" (csvLine headers :: values.map (fun item => csvLine (row item)))

/-! ## Spec-side decoder

A correct semicolon/newline/double-quote-aware table parser, written from the
spec's words: rows are separated by unquoted newlines, cells by unquoted
semicolons, a cell starting with a double quote extends to the matching
closing quote (so it may contain separators), and a doubled quote inside a
quoted cell denotes one literal quote.  The parser is a single left-to-right
pass; an empty input denotes a single row holding a single empty cell, as in
every delimiter-separated-values convention (a line always has at least one
cell). -/

/-- Parser state: inside a quoted cell or not; `pendingQuote` records that a
quote was just read inside a quoted cell (it is either the first half of a
doubled quote or the closing quote, decided by the next character).
`field` holds the current cell's characters in reverse; `row` the finished
cells of the current row in order; `rows` the finished rows in order. -/
structure CsvScanState where
  inQuotes : Bool
  pendingQuote : Bool
  field : List Char
  row : List String
  rows : List (List String)

/-- Consume one character. -/
def csvStep (s : CsvScanState) (c : Char) : CsvScanState :=
  if s.inQuotes then
    if s.pendingQuote then
      if c = '"' then
        { s with pendingQuote := false, field := '"' :: s.field }
      else if c = ';' then
        ⟨false, false, [], s.row ++ [String.mk s.field.reverse], s.rows⟩
      else if c = '\n' then
        ⟨false, false, [], [], s.rows ++ [s.row ++ [String.mk s.field.reverse]]⟩
      else
        ⟨false, false, c :: s.field, s.row, s.rows⟩
    else
      if c = '"' then { s with pendingQuote := true }
      else { s with field := c :: s.field }
  else
    if c = '"' then { s with inQuotes := true }
    else if c = ';' then
      ⟨false, false, [], s.row ++ [String.mk s.field.reverse], s.rows⟩
    else if c = '\n' then
      ⟨false, false, [], [], s.rows ++ [s.row ++ [String.mk s.field.reverse]]⟩
    else { s with field := c :: s.field }

/-- Close the final cell and row at end of input. -/
def csvFinish (s : CsvScanState) : List (List String) :=
  s.rows ++ [s.row ++ [String.mk s.field.reverse]]

/-- Parse a whole table. -/
def parseCsv (s : String) : List (List String) :=
  csvFinish (s.data.foldl csvStep ⟨false, false, [], [], []⟩)

/-- The apostrophe guard that the encoder applies before any quoting: the
only part of a cell's value that a delimiter-aware decoder cannot undo. -/
def formulaGuard (cell : String) : String :=
  if startsWithFormulaChar cell then "'" ++ cell else cell

/-! ## Round-trip lemmas: scanning an encoded table recovers the cells
(up to the apostrophe formula guard, which no delimiter-aware decoder
can undo) -/

lemma mk_data_eq (p : String) : String.mk p.data = p := by
  cases p; rfl

lemma data_append (a b : String) : (a ++ b).data = a.data ++ b.data := rfl

/-- Scanning characters of an unquoted cell just accumulates them. -/
lemma scan_raw (l : List Char) (f : List Char) (r : List String)
    (rs : List (List String)) (h : ∀ c ∈ l, isSpecialChar c = false) :
    List.foldl csvStep ⟨false, false, f, r, rs⟩ l =
      ⟨false, false, l.reverse ++ f, r, rs⟩ := by
  induction l generalizing f with
  | nil => simp
  | cons c cs ih =>
    have hc := h c (by simp)
    simp only [isSpecialChar, Bool.or_eq_false_iff, decide_eq_false_iff_not] at hc
    obtain ⟨⟨h1, h2⟩, h3⟩ := hc
    rw [List.foldl_cons]
    have hstep : csvStep ⟨false, false, f, r, rs⟩ c =
        ⟨false, false, c :: f, r, rs⟩ := by
      simp [csvStep, h1, h2, h3]
    rw [hstep, ih _ (fun x hx => h x (by simp [hx]))]
    simp

/-- Scanning the quote-doubled body of a quoted cell accumulates the
original characters and stays inside the quotes. -/
lemma scan_quoted_body (l : List Char) (f : List Char) (r : List String)
    (rs : List (List String)) :
    List.foldl csvStep ⟨true, false, f, r, rs⟩ (doubleQuotesChars l) =
      ⟨true, false, l.reverse ++ f, r, rs⟩ := by
  induction l generalizing f with
  | nil => simp [doubleQuotesChars]
  | cons c cs ih =>
    by_cases hc : c = '"'
    · subst hc
      have hdq : doubleQuotesChars ('"' :: cs) =
          '"' :: '"' :: doubleQuotesChars cs := by
        simp [doubleQuotesChars]
      rw [hdq, List.foldl_cons, List.foldl_cons]
      have h1 : csvStep ⟨true, false, f, r, rs⟩ '"' = ⟨true, true, f, r, rs⟩ := by
        simp [csvStep]
      have h2 : csvStep ⟨true, true, f, r, rs⟩ '"' =
          ⟨true, false, '"' :: f, r, rs⟩ := by
        simp [csvStep]
      rw [h1, h2, ih]
      simp
    · have hdq : doubleQuotesChars (c :: cs) = c :: doubleQuotesChars cs := by
        simp [doubleQuotesChars, hc]
      rw [hdq, List.foldl_cons]
      have h1 : csvStep ⟨true, false, f, r, rs⟩ c = ⟨true, false, c :: f, r, rs⟩ := by
        simp [csvStep, hc]
      rw [h1, ih]
      simp

/-- After scanning one encoded cell the machine holds the decoded cell in
`field`, either outside quotes or right after a closing quote. -/
def FieldDone (st : CsvScanState) (p : String) (r : List String)
    (rs : List (List String)) : Prop :=
  st = ⟨false, false, p.data.reverse, r, rs⟩ ∨
    st = ⟨true, true, p.data.reverse, r, rs⟩

lemma fieldDone_semi {st : CsvScanState} {p : String} {r : List String}
    {rs : List (List String)} (h : FieldDone st p r rs) :
    csvStep st ';' = ⟨false, false, [], r ++ [p], rs⟩ := by
  rcases h with h | h <;> subst h <;>
    simp [csvStep, mk_data_eq]

lemma fieldDone_newline {st : CsvScanState} {p : String} {r : List String}
    {rs : List (List String)} (h : FieldDone st p r rs) :
    csvStep st '\n' = ⟨false, false, [], [], rs ++ [r ++ [p]]⟩ := by
  rcases h with h | h <;> subst h <;>
    simp [csvStep, mk_data_eq]

lemma fieldDone_finish {st : CsvScanState} {p : String} {r : List String}
    {rs : List (List String)} (h : FieldDone st p r rs) :
    csvFinish st = rs ++ [r ++ [p]] := by
  rcases h with h | h <;> subst h <;>
    simp [csvFinish, mk_data_eq]

/-- Scanning one encoded cell from a fresh-field state: the decoded content
is the original cell with the formula guard applied. -/
lemma scan_field (cell : String) (r : List String) (rs : List (List String)) :
    FieldDone
      (List.foldl csvStep ⟨false, false, [], r, rs⟩ (escapeCsvField cell).data)
      (formulaGuard cell) r rs := by
  have hguard : escapeCsvField cell =
      (if containsSpecialChar (formulaGuard cell) then
        "\"" ++ String.mk (doubleQuotesChars (formulaGuard cell).data) ++ "\""
      else formulaGuard cell) := by
    simp [escapeCsvField, formulaGuard]
  by_cases hs : containsSpecialChar (formulaGuard cell)
  · have hdata : (escapeCsvField cell).data =
        '"' :: (doubleQuotesChars (formulaGuard cell).data ++ ['"']) := by
      rw [hguard, if_pos hs]
      simp [data_append]
    rw [hdata]
    rw [List.foldl_cons]
    have h1 : csvStep ⟨false, false, [], r, rs⟩ '"' = ⟨true, false, [], r, rs⟩ := by
      simp [csvStep]
    rw [h1, List.foldl_append, scan_quoted_body]
    have h2 : csvStep ⟨true, false, (formulaGuard cell).data.reverse ++ [], r, rs⟩ '"' =
        ⟨true, true, (formulaGuard cell).data.reverse ++ [], r, rs⟩ := by
      simp [csvStep]
    simp only [List.foldl_cons, List.foldl_nil, h2]
    right
    simp
  · have hdata : escapeCsvField cell = formulaGuard cell := by
      rw [hguard, if_neg hs]
    rw [hdata]
    have hnospecial : ∀ c ∈ (formulaGuard cell).data, isSpecialChar c = false := by
      intro c hc
      by_contra hcontra
      have : containsSpecialChar (formulaGuard cell) := by
        simp only [containsSpecialChar, List.any_eq_true]
        exact ⟨c, hc, by revert hcontra; cases isSpecialChar c <;> simp⟩
      exact hs this
    rw [scan_raw _ _ _ _ hnospecial]
    left
    simp

/-- Scanning a whole encoded line: the cells accumulate in order, with the
last one still sitting in `field`. -/
lemma scan_line (cs : List String) (c : String) (r : List String)
    (rs : List (List String)) :
    ∃ (r' : List String) (p : String),
      FieldDone (List.foldl csvStep ⟨false, false, [], r, rs⟩
          (csvLine (c :: cs)).data) p r' rs ∧
        r' ++ [p] = r ++ (c :: cs).map formulaGuard := by
  induction cs generalizing c r with
  | nil =>
    refine ⟨r, formulaGuard c, ?_, by simp⟩
    have hline : csvLine [c] = escapeCsvField c := by simp [csvLine, joinSep]
    rw [hline]
    exact scan_field c r rs
  | cons c' cs' ih =>
    have hline : csvLine (c :: c' :: cs') =
        escapeCsvField c ++ ";" ++ csvLine (c' :: cs') := by
      simp [csvLine, joinSep, List.map_cons]
    rw [hline]
    have hdata : (escapeCsvField c ++ ";" ++ csvLine (c' :: cs')).data =
        (escapeCsvField c).data ++ (';' :: (csvLine (c' :: cs')).data) := by
      simp [data_append]
    rw [hdata, List.foldl_append]
    have hfd := scan_field c r rs
    rw [List.foldl_cons, fieldDone_semi hfd]
    obtain ⟨r', p, hdone, heq⟩ := ih c' (r ++ [formulaGuard c])
    exact ⟨r', p, hdone, by simp [heq]⟩

/-- Scanning a whole encoded table (all rows nonempty): every row is
recovered with the formula guard applied to each cell. -/
lemma scan_table (lines : List (List String)) (l0 : List String)
    (h0 : l0 ≠ []) (h : ∀ row ∈ lines, row ≠ [])
    (rs : List (List String)) :
    csvFinish (List.foldl csvStep ⟨false, false, [], [], rs⟩
        (joinSep "\n" ((l0 :: lines).map csvLine)).data) =
      rs ++ (l0 :: lines).map (List.map formulaGuard) := by
  induction lines generalizing l0 rs with
  | nil =>
    obtain ⟨c, cs, rfl⟩ := List.exists_cons_of_ne_nil h0
    have hj : joinSep "\n" ([c :: cs].map csvLine) = csvLine (c :: cs) := by
      simp [joinSep]
    rw [hj]
    obtain ⟨r', p, hdone, heq⟩ := scan_line cs c [] rs
    rw [fieldDone_finish hdone, heq]
    simp
  | cons l1 rest ih =>
    obtain ⟨c, cs, rfl⟩ := List.exists_cons_of_ne_nil h0
    have hj : joinSep "\n" (((c :: cs) :: l1 :: rest).map csvLine) =
        csvLine (c :: cs) ++ "\n" ++ joinSep "\n" ((l1 :: rest).map csvLine) := by
      simp [joinSep, List.map_cons]
    rw [hj]
    have hdata : (csvLine (c :: cs) ++ "\n" ++
        joinSep "\n" ((l1 :: rest).map csvLine)).data =
        (csvLine (c :: cs)).data ++
          ('\n' :: (joinSep "\n" ((l1 :: rest).map csvLine)).data) := by
      simp [data_append]
    rw [hdata, List.foldl_append]
    obtain ⟨r', p, hdone, heq⟩ := scan_line cs c [] rs
    rw [List.foldl_cons, fieldDone_newline hdone, heq]
    have h1 : l1 ≠ [] := h l1 (by simp)
    have hrest : ∀ row ∈ rest, row ≠ [] := fun row hr => h row (by simp [hr])
    rw [ih l1 h1 hrest]
    simp

/-- Master round-trip lemma: parsing an encoded table of nonempty rows
yields the original rows with the formula guard applied to every cell. -/
lemma parse_encoded_table (lines : List (List String)) (h0 : lines ≠ [])
    (h : ∀ row ∈ lines, row ≠ []) :
    parseCsv (joinSep "\n" (lines.map csvLine)) =
      lines.map (List.map formulaGuard) := by
  obtain ⟨l0, rest, rfl⟩ := List.exists_cons_of_ne_nil h0
  have := scan_table rest l0 (h l0 (by simp)) (fun row hr => h row (by simp [hr])) []
  simpa [parseCsv] using this

/-- `createCsvBuffer`'s string is the line-joined encoding of the header row
followed by the projected rows. -/
lemma createCsvString_eq {α : Type} (headers : List String) (values : List α)
    (row : α → List String) :
    createCsvString headers values row =
      joinSep "\n" ((headers :: values.map row).map csvLine) := by
  simp [createCsvString, List.map_map]
  rfl

/-- Round trip through `createCsvBuffer`, general form. -/
lemma parse_createCsvString {α : Type} (headers : List String)
    (values : List α) (row : α → List String) (hh : headers ≠ [])
    (hrow : ∀ v ∈ values, row v ≠ []) :
    parseCsv (createCsvString headers values row) =
      (headers :: values.map row).map (List.map formulaGuard) := by
  rw [createCsvString_eq]
  refine parse_encoded_table _ (by simp) ?_
  intro r hr
  rcases List.mem_cons.mp hr with rfl | hr
  · exact hh
  · obtain ⟨v, hv, rfl⟩ := List.mem_map.mp hr
    exact hrow v hv

/-! ## Claims C1, C2, C3 -/

lemma startsWithFormulaChar_iff (s : String) :
    startsWithFormulaChar s = true ↔
      (s.data.head? = some '=' ∨ s.data.head? = some '+' ∨
        s.data.head? = some '-' ∨ s.data.head? = some '@') := by
  rcases h : s.data with _ | ⟨c, cs⟩ <;> simp [startsWithFormulaChar, h] <;> tauto

lemma containsSpecialChar_iff (s : String) :
    containsSpecialChar s = true ↔
      (';' ∈ s.data ∨ '\n' ∈ s.data ∨ '"' ∈ s.data) := by
  simp only [containsSpecialChar, List.any_eq_true, isSpecialChar,
    Bool.or_eq_true, decide_eq_true_eq]
  constructor
  · rintro ⟨x, hx, (rfl | rfl) | rfl⟩
    · exact Or.inl hx
    · exact Or.inr (Or.inl hx)
    · exact Or.inr (Or.inr hx)
  · rintro (h | h | h)
    · exact ⟨_, h, Or.inl (Or.inl rfl)⟩
    · exact ⟨_, h, Or.inl (Or.inr rfl)⟩
    · exact ⟨_, h, Or.inr rfl⟩

lemma doubleQuotesChars_eq_flatMap (l : List Char) :
    doubleQuotesChars l =
      l.flatMap (fun c => if c = '"' then ['"', '"'] else [c]) := by
  induction l with
  | nil => simp [doubleQuotesChars]
  | cons c cs ih =>
    by_cases hc : c = '"' <;> simp [doubleQuotesChars, hc, ih]

/-- The apostrophe prefixing rule, written from the spec's words ("If `raw`
starts with any of `= + - @`, prepend a literal apostrophe"), to be compared
with the source's `escapeCsvField`. -/
def apostropheRuleSpec (raw : String) : String :=
  if raw.data.head? = some '=' ∨ raw.data.head? = some '+' ∨
      raw.data.head? = some '-' ∨ raw.data.head? = some '@' then
    "'" ++ raw
  else raw

/-- The whole field encoder, written from the spec's words ("If the (possibly
apostrophe-prefixed) value contains a semicolon, newline, or double-quote,
wrap the whole value in double quotes and double every internal double quote;
otherwise return unchanged"), to be compared with the source's
`escapeCsvField`. -/
def encodeFieldSpec (raw : String) : String :=
  if ';' ∈ (apostropheRuleSpec raw).data ∨ '\n' ∈ (apostropheRuleSpec raw).data ∨
      '"' ∈ (apostropheRuleSpec raw).data then
    "\"" ++ String.mk ((apostropheRuleSpec raw).data.flatMap
      (fun c => if c = '"' then ['"', '"'] else [c])) ++ "\""
  else apostropheRuleSpec raw

lemma escapeCsvField_eq (raw : String) :
    escapeCsvField raw =
      if containsSpecialChar (formulaGuard raw) then
        "\"" ++ String.mk (doubleQuotesChars (formulaGuard raw).data) ++ "\""
      else formulaGuard raw := by
  simp [escapeCsvField, formulaGuard]

lemma formulaGuard_eq_spec (raw : String) :
    formulaGuard raw = apostropheRuleSpec raw := by
  rw [formulaGuard, apostropheRuleSpec]
  by_cases h : startsWithFormulaChar raw
  · rw [if_pos h, if_pos ((startsWithFormulaChar_iff raw).mp h)]
  · rw [if_neg h, if_neg (fun hc => h ((startsWithFormulaChar_iff raw).mpr hc))]

/-- **C1.** For every input string `raw`, the field encoder behaves as: if
`raw` starts with one of `=`, `+`, `-`, `@`, a literal apostrophe is
prepended; if the (possibly apostrophe-prefixed) value contains a semicolon,
newline, or double quote, the whole value is wrapped in double quotes with
every internal double quote doubled; otherwise the value is returned
unchanged.  In particular `"=SUM(A1)"` encodes to `"'=SUM(A1)"`. -/
theorem C1_field_encoder_spec :
    (∀ raw : String, escapeCsvField raw = encodeFieldSpec raw) ∧
      escapeCsvField "=SUM(A1)" = "'=SUM(A1)" := by
  constructor
  · intro raw
    rw [escapeCsvField_eq, encodeFieldSpec, ← formulaGuard_eq_spec]
    by_cases hc : containsSpecialChar (formulaGuard raw)
    · rw [if_pos hc, if_pos ((containsSpecialChar_iff _).mp hc),
        doubleQuotesChars_eq_flatMap]
    · rw [if_neg hc, if_neg (fun hp => hc ((containsSpecialChar_iff _).mpr hp))]
  · decide

/-- **C2 counterexample.** At the empty header list (with an empty record
list and the projection returning no cells) the table buffer is the empty
string, which any delimiter-aware decoder reads as one row holding one
(empty) cell — not zero cells, as the claim's "each row has exactly
`headers.length` cells" requires. -/
theorem C2_counterexample :
    ¬ (∀ row ∈ parseCsv (createCsvString ([] : List String) ([] : List Unit)
        (fun _ => [])), row.length = ([] : List String).length) := by
  decide

/-- **C2 (amended).** For every *nonempty* header list, every record list,
and every projection returning exactly `headers.length` cells per record,
the table built by `createCsvBuffer` parses into exactly
`records.length + 1` rows — the header row followed by one row per record in
the given order (each cell carrying the apostrophe guard where applicable) —
and every parsed row has exactly `headers.length` cells. -/
theorem C2_table_shape {α : Type} (headers : List String) (values : List α)
    (project : α → List String) (hh : headers ≠ [])
    (hlen : ∀ v ∈ values, (project v).length = headers.length) :
    (parseCsv (createCsvString headers values project)).length =
        values.length + 1
    ∧ (∀ row ∈ parseCsv (createCsvString headers values project),
        row.length = headers.length)
    ∧ parseCsv (createCsvString headers values project) =
        (headers :: values.map project).map (List.map formulaGuard) := by
  have hrow : ∀ v ∈ values, project v ≠ [] := by
    intro v hv hc
    have hl := hlen v hv
    rw [hc] at hl
    exact hh (List.length_eq_zero.mp hl.symm)
  have hmain := parse_createCsvString headers values project hh hrow
  refine ⟨by rw [hmain]; simp, ?_, hmain⟩
  intro row hr
  rw [hmain] at hr
  rcases List.mem_map.mp hr with ⟨orig, horig, rfl⟩
  rcases List.mem_cons.mp horig with rfl | horig
  · simp
  · rcases List.mem_map.mp horig with ⟨v, hv, rfl⟩
    simp [hlen v hv]

/-- Witness for `C2_table_shape` at a concrete table. -/
theorem C2_table_shape_witness :
    ((["id", "value"] : List String) ≠ [] ∧
      (∀ v ∈ ["a;b"], ((fun s => [s, "=x"]) v : List String).length =
        (["id", "value"] : List String).length)) ∧
    (parseCsv (createCsvString ["id", "value"] ["a;b"]
        (fun s => [s, "=x"]))).length = 2 := by
  refine ⟨⟨by decide, by decide⟩, ?_⟩
  exact (C2_table_shape ["id", "value"] ["a;b"] (fun s => [s, "=x"])
    (by decide) (by decide)).1

/-- **C3 counterexample.** Decode-after-encode is not the identity on cell
values: the formula-injection guard prepends an apostrophe that no
delimiter-aware decoder removes, so the cell `"=SUM(A1)"` comes back as
`"'=SUM(A1)"`. -/
theorem C3_counterexample :
    parseCsv (createCsvString ["h"] ["=SUM(A1)"] (fun c => [c])) ≠
      [["h"], ["=SUM(A1)"]] := by
  decide

/-- **C3 (amended).** For every table built by `createCsvBuffer` from a
nonempty header list and projections yielding nonempty rows, decoding with a
correct semicolon/newline/double-quote-aware parser reconstructs every cell
up to the apostrophe formula guard: each cell starting with `=`, `+`, `-`
or `@` comes back with a leading apostrophe prepended, and every other cell
comes back exactly; in particular, when no cell starts with one of those
four characters, decode-after-encode is the identity on cell values. -/
theorem C3_round_trip {α : Type} (headers : List String) (values : List α)
    (project : α → List String) (hh : headers ≠ [])
    (hrow : ∀ v ∈ values, project v ≠ []) :
    parseCsv (createCsvString headers values project) =
        (headers :: values.map project).map (List.map formulaGuard)
    ∧ ((∀ row ∈ headers :: values.map project, ∀ cell ∈ row,
          startsWithFormulaChar cell = false) →
        parseCsv (createCsvString headers values project) =
          headers :: values.map project) := by
  have hmain := parse_createCsvString headers values project hh hrow
  refine ⟨hmain, fun hg => ?_⟩
  rw [hmain]
  have : ∀ row ∈ headers :: values.map project,
      row.map formulaGuard = row := by
    intro row hr
    have : ∀ cell ∈ row, formulaGuard cell = cell := by
      intro cell hcell
      rw [formulaGuard, if_neg]
      simp [hg row hr cell hcell]
    calc row.map formulaGuard = row.map id := List.map_congr_left this
      _ = row := List.map_id row
  calc (headers :: values.map project).map (List.map formulaGuard)
      = (headers :: values.map project).map id :=
        List.map_congr_left this
    _ = _ := List.map_id _

/-- Witness for `C3_round_trip` at a concrete table. -/
theorem C3_round_trip_witness :
    ((["h1", "h2"] : List String) ≠ [] ∧
      (∀ v ∈ [("a;b", "x\ny")],
        ((fun p : String × String => [p.1, p.2]) v : List String) ≠ [])) ∧
    parseCsv (createCsvString ["h1", "h2"] [("a;b", "x\ny")]
        (fun p => [p.1, p.2])) = [["h1", "h2"], ["a;b", "x\ny"]] := by
  refine ⟨⟨by decide, by decide⟩, ?_⟩
  exact (C3_round_trip ["h1", "h2"] [("a;b", "x\ny")]
    (fun p => [p.1, p.2]) (by decide) (by decide)).2 (by decide)

/-! ## Questionnaire item trees (source: `addQuestionnaires` / `leafItems`)

`FHIRQuestionnaireItem` is the recursive questionnaire node; every field is
optional, matching the FHIR-typed records the service reads. -/

/-- A FHIR coding: `{ code?, display? }`. -/
structure Coding where
  code : Option String
  display : Option String
deriving Repr, DecidableEq

/-- A questionnaire answer option: `{ valueCoding? }`. -/
structure AnswerOption where
  valueCoding : Option Coding
deriving Repr, DecidableEq

/-- Recursive questionnaire item node
`{ linkId?, text?, type?, answerOption?[], item?[] }`. -/
inductive FHIRQuestionnaireItem : Type where
  | mk (linkId text type : Option String)
       (answerOption : Option (List AnswerOption))
       (item : Option (List FHIRQuestionnaireItem))

/-- The `item` (children) field. -/
def FHIRQuestionnaireItem.item :
    FHIRQuestionnaireItem → Option (List FHIRQuestionnaireItem)
  | .mk _ _ _ _ i => i

/-! `leafItems` embeds the source's recursive leaf collector:

```
function leafItems(item: FHIRQuestionnaireItem): FHIRQuestionnaireItem[] {
  if (!item.item || item.item.length === 0) { return [item]; }
  return item.item.flatMap((child) => leafItems(child));
}
```
The second function of the mutual block stands for the `flatMap` over a
child list (see `leafItemsList_eq_flatMap`). -/

mutual
def leafItems : FHIRQuestionnaireItem → List FHIRQuestionnaireItem
  | .mk l t ty ao none => [.mk l t ty ao none]
  | .mk l t ty ao (some []) => [.mk l t ty ao (some [])]
  | .mk l t ty ao (some (c :: cs)) => leafItemsList (c :: cs)
def leafItemsList : List FHIRQuestionnaireItem → List FHIRQuestionnaireItem
  | [] => []
  | x :: xs => leafItems x ++ leafItemsList xs
end

/-! `preorderItems` is the spec-side reference traversal: all nodes of the
tree in depth-first pre-order, children in original order. -/

mutual
def preorderItems : FHIRQuestionnaireItem → List FHIRQuestionnaireItem
  | .mk l t ty ao none => [.mk l t ty ao none]
  | .mk l t ty ao (some cs) => .mk l t ty ao (some cs) :: preorderList cs
def preorderList : List FHIRQuestionnaireItem → List FHIRQuestionnaireItem
  | [] => []
  | x :: xs => preorderItems x ++ preorderList xs
end

/-- Spec-side leaf test: a node whose child list is absent or empty. -/
def isLeafItem : FHIRQuestionnaireItem → Bool
  | .mk _ _ _ _ none => true
  | .mk _ _ _ _ (some []) => true
  | .mk _ _ _ _ (some (_ :: _)) => false

lemma leafItemsList_eq_filter_of (xs : List FHIRQuestionnaireItem)
    (h : ∀ x ∈ xs, leafItems x = (preorderItems x).filter isLeafItem) :
    leafItemsList xs = (preorderList xs).filter isLeafItem := by
  induction xs with
  | nil => simp [leafItemsList, preorderList]
  | cons x xs ih =>
    rw [leafItemsList, preorderList, List.filter_append,
      h x (by simp), ih (fun y hy => h y (by simp [hy]))]

lemma leafItems_eq_filter_aux :
    ∀ (n : Nat) (i : FHIRQuestionnaireItem), sizeOf i ≤ n →
      leafItems i = (preorderItems i).filter isLeafItem := by
  intro n
  induction n with
  | zero =>
    intro i h
    exfalso
    cases i with
    | mk l t ty ao it => simp [FHIRQuestionnaireItem.mk.sizeOf_spec] at h
  | succ n ih =>
    intro i hle
    match i with
    | .mk l t ty ao none => simp [leafItems, preorderItems, isLeafItem]
    | .mk l t ty ao (some []) =>
      simp [leafItems, preorderItems, preorderList, isLeafItem]
    | .mk l t ty ao (some (c :: cs)) =>
      rw [leafItems, preorderItems]
      have hleaf : isLeafItem (.mk l t ty ao (some (c :: cs))) = false := rfl
      rw [List.filter_cons, hleaf]
      simp only [Bool.false_eq_true, if_false]
      refine leafItemsList_eq_filter_of _ (fun x hx => ih x ?_)
      have h1 : sizeOf x < sizeOf (c :: cs) := List.sizeOf_lt_of_mem hx
      simp only [List.cons.sizeOf_spec] at h1
      have h2 : sizeOf (FHIRQuestionnaireItem.mk l t ty ao (some (c :: cs)))
          ≤ n + 1 := hle
      simp [FHIRQuestionnaireItem.mk.sizeOf_spec] at h2
      omega

/-- The collected rows of one item tree are exactly its leaves in
depth-first pre-order. -/
lemma leafItems_eq_filter (i : FHIRQuestionnaireItem) :
    leafItems i = (preorderItems i).filter isLeafItem :=
  leafItems_eq_filter_aux (sizeOf i) i le_rfl

lemma leafItemsList_eq_filter (xs : List FHIRQuestionnaireItem) :
    leafItemsList xs = (preorderList xs).filter isLeafItem :=
  leafItemsList_eq_filter_of xs (fun x _ => leafItems_eq_filter x)

lemma mem_leafItems_isLeaf {i x : FHIRQuestionnaireItem}
    (hx : x ∈ leafItems i) : isLeafItem x = true := by
  rw [leafItems_eq_filter] at hx
  exact (List.mem_filter.mp hx).2

lemma leafItemsList_eq_flatMap (xs : List FHIRQuestionnaireItem) :
    leafItemsList xs = xs.flatMap leafItems := by
  induction xs with
  | nil => simp [leafItemsList]
  | cons x xs ih => simp [leafItemsList, ih]

/-- A questionnaire's content: `{ item?[] }` (only the item tree is read by
the export). -/
structure QuestionnaireContent where
  item : Option (List FHIRQuestionnaireItem)

/-- Embeds the per-questionnaire row collection in `addQuestionnaires`:
`(questionnaire.content.item ?? []).flatMap((item) => leafItems(item))`. -/
def questionnaireLeafItems (content : QuestionnaireContent) :
    List FHIRQuestionnaireItem :=
  (content.item.getD []).flatMap leafItems

lemma questionnaireLeafItems_eq_filter (content : QuestionnaireContent) :
    questionnaireLeafItems content =
      ((content.item.getD []).flatMap preorderItems).filter isLeafItem := by
  rw [questionnaireLeafItems]
  induction content.item.getD [] with
  | nil => simp
  | cons x xs ih =>
    simp only [List.flatMap_cons, List.filter_append, ih,
      leafItems_eq_filter x]

/-! The concrete tree from the claim:
`A(children: A1, A2(children: A2a))`. -/

/-- Leaf child `A1`. -/
def exampleA1 : FHIRQuestionnaireItem := .mk (some "A1") none none none none

/-- Leaf grandchild `A2a`. -/
def exampleA2a : FHIRQuestionnaireItem := .mk (some "A2a") none none none none

/-- Inner node `A2` with child `A2a`. -/
def exampleA2 : FHIRQuestionnaireItem :=
  .mk (some "A2") none none none (some [exampleA2a])

/-- Root `A` with children `A1`, `A2`. -/
def exampleA : FHIRQuestionnaireItem :=
  .mk (some "A") none none none (some [exampleA1, exampleA2])

/-- **C4.** For every questionnaire item tree, the exported rows are exactly
the leaf items (nodes whose child list is absent or empty) collected
depth-first, pre-order, with children visited in their original order;
every node that has children is excluded.  On the tree
`A(children: A1, A2(children: A2a))` the collected leaf order is
`[A1, A2a]`. -/
theorem C4_leaf_collection :
    (∀ i : FHIRQuestionnaireItem,
      leafItems i = (preorderItems i).filter isLeafItem) ∧
    (∀ content : QuestionnaireContent,
      questionnaireLeafItems content =
        ((content.item.getD []).flatMap preorderItems).filter isLeafItem) ∧
    leafItems exampleA = [exampleA1, exampleA2a] :=
  ⟨leafItems_eq_filter, questionnaireLeafItems_eq_filter, rfl⟩

/-- **C9.** An item whose child list is present but empty is treated exactly
like an item with no child-list field: it counts as a leaf and is emitted as
its own single row.  The leaf test is "child list absent OR child list of
length zero": `leafItems i` is the singleton `[i]` precisely when `i.item`
is `none` or `some []`, so an empty child array never excludes an item. -/
theorem C9_empty_child_list_is_leaf :
    (∀ l t ty ao, leafItems (.mk l t ty ao (some [])) =
        [FHIRQuestionnaireItem.mk l t ty ao (some [])]) ∧
    (∀ l t ty ao, leafItems (.mk l t ty ao none) =
        [FHIRQuestionnaireItem.mk l t ty ao none]) ∧
    (∀ i : FHIRQuestionnaireItem,
      leafItems i = [i] ↔ (i.item = none ∨ i.item = some [])) := by
  refine ⟨fun l t ty ao => rfl, fun l t ty ao => rfl, fun i => ?_⟩
  constructor
  · intro h
    have hmem : i ∈ leafItems i := by rw [h]; simp
    have hleaf := mem_leafItems_isLeaf hmem
    match i with
    | .mk l t ty ao none => simp [FHIRQuestionnaireItem.item]
    | .mk l t ty ao (some []) => simp [FHIRQuestionnaireItem.item]
    | .mk l t ty ao (some (c :: cs)) => simp [isLeafItem] at hleaf
  · rintro (h | h)
    · match i, h with
      | .mk l t ty ao _, rfl => rfl
    · match i, h with
      | .mk l t ty ao _, rfl => rfl

/-! ## Clinical record models

Record content types are modelled with the optionality of the TypeScript
clinical model, except that for the two record types whose required-field
handling claim C10 exercises — appointments and symptom scores — the
projector-read fields are modelled at the JS runtime level, where a
deserialized document may lack any field: such a field is `Option`, a plain
property access passes the `Option` through, and a method call
(`.toString()` / `.toISOString()`) on it throws a `TypeError` when it is
absent. -/

/-- A stored clinical document: `{ id, content }`. -/
structure Doc (α : Type) where
  id : String
  content : α

/-- A JS `Date`, identified by its `toISOString()` rendering. -/
structure JsDate where
  isoString : String
deriving Repr, DecidableEq

/-- A JS runtime exception (a `TypeError` thrown by calling a method on
`undefined`). -/
structure JsError where
  message : String
deriving Repr, DecidableEq

/-- `x.toString()` on a possibly-absent number: throws when absent. -/
def jsToString (x : Option Nat) : Except JsError String :=
  match x with
  | none => .error ⟨"TypeError: cannot read toString of undefined"⟩
  | some n => .ok (toString n)

/-- `x.toISOString()` on a possibly-absent date: throws when absent. -/
def jsToISOString (x : Option JsDate) : Except JsError String :=
  match x with
  | none => .error ⟨"TypeError: cannot read toISOString of undefined"⟩
  | some d => .ok d.isoString

/-- One table cell as the JS runtime produces it: a string, or `undefined`
(e.g. an out-of-range array index). -/
abbrev JsCell := Option String

/-- `escapeCsvField` as applied by `createCsvBuffer`'s
`.map(escapeCsvField)` to a possibly-`undefined` cell: both regex tests
coerce `undefined` to the string `"undefined"`, which neither starts with a
formula character nor contains a special character, so
`escapeCsvField(undefined)` is `undefined` — the cell passes through. -/
def escapeJsCell (cell : JsCell) : JsCell :=
  cell.map escapeCsvField

/-- One encoded line of possibly-`undefined` cells:
`cells.map(escapeCsvField).join(";")`; JS `Array.prototype.join` renders an
`undefined` element as the empty string. -/
def jsCsvLine (cells : List JsCell) : String :=
  joinSep ";" ((cells.map escapeJsCell).map (fun c => c.getD ""))

/-- `createCsvBuffer` at the JS runtime level for a projection that cannot
throw but may produce `undefined` cells (the medication-request rows). -/
def createCsvStringJs {α : Type} (headers : List String) (values : List α)
    (row : α → List JsCell) : String :=
  joinSep "\n" (csvLine headers :: values.map (fun item => jsCsvLine (row item)))

/-- A JS `Array.map` (or sequential `for ... await`) whose body may throw:
the first throw aborts the whole iteration. -/
def mapExcept {α β : Type} (f : α → Except JsError β) :
    List α → Except JsError (List β)
  | [] => .ok []
  | x :: xs => do
    let y ← f x
    let ys ← mapExcept f xs
    pure (y :: ys)

/-- `createCsvBuffer` at the JS runtime level for a projection that may
throw: a throw inside `values.map(...)` aborts the whole buffer. -/
def createCsvBufferJs {α : Type} (headers : List String) (values : List α)
    (row : α → Except JsError (List JsCell)) : Except JsError String := do
  let rows ← mapExcept row values
  pure (joinSep "\n" (csvLine headers :: rows.map jsCsvLine))

/-- Embeds JS `String.prototype.split` with a one-character separator, at
the character level (`String.splitOn` agrees but is opaque to evaluation):
`"".split(sep)` is `[""]`, a trailing separator yields a trailing empty
segment. -/
def splitChars (sep : Char) : List Char → List (List Char)
  | [] => [[]]
  | c :: cs =>
    if c = sep then [] :: splitChars sep cs
    else
      match splitChars sep cs with
      | [] => [[c]]
      | f :: rest => (c :: f) :: rest

/-- JS `s.split(sep)` for a one-character separator. -/
def jsSplit (sep : Char) (s : String) : List String :=
  (splitChars sep s.data).map String.mk

/-- Appointment content at the JS runtime level (see the section comment):
the source field `end` is named `endDate` here because `end` is a Lean
keyword. -/
structure AppointmentContent where
  status : Option String
  created : Option JsDate
  start : Option JsDate
  endDate : Option JsDate

/-- Embeds the appointments projector of `addUserAppointments`:

```
(value) => [ value.id, value.content.status,
  value.content.created.toISOString(), value.content.start.toISOString(),
  value.content.end.toISOString() ]
```

`status` is a plain property access (an absent `status` flows into the row
as `undefined`); the three date cells call `.toISOString()`, which throws
on an absent value — in JS array-literal evaluation order, `created`
first. -/
def appointmentRow (value : Doc AppointmentContent) :
    Except JsError (List JsCell) := do
  let createdIso ← jsToISOString value.content.created
  let startIso ← jsToISOString value.content.start
  let endIso ← jsToISOString value.content.endDate
  pure [some value.id, value.content.status, some createdIso, some startIso,
    some endIso]

/-- A localizable string; `.localize()` resolves it to a display string.
Modelled from the spec: message `title` is "a localizable string resolved to
a display string at export time" by the external model's `localize()`. -/
structure LocalizedText where
  localized : String
deriving Repr, DecidableEq

/-- Message content (TypeScript-level optionality). -/
structure MessageContent where
  type : String
  title : LocalizedText
  action : Option String
  reference : Option String
  creationDate : JsDate
  completionDate : Option JsDate
  dueDate : Option JsDate

/-- Embeds the messages projector of `addUserMessages`. -/
def messageRow (value : Doc MessageContent) : List String :=
  [value.id,
   value.content.type,
   value.content.title.localized,
   value.content.action.getD "",
   value.content.reference.getD "",
   value.content.creationDate.isoString,
   (value.content.completionDate.map JsDate.isoString).getD "",
   (value.content.dueDate.map JsDate.isoString).getD ""]

/-- A FHIR reference: `{ reference? }`. -/
structure FHIRReference where
  reference : Option String

/-- `{ value?, unit? }` dose quantity. -/
structure DoseQuantity where
  value : Option Nat
  unit : Option String

/-- `{ doseQuantity? }`. -/
structure DoseAndRate where
  doseQuantity : Option DoseQuantity

/-- `{ frequency? }`; the source field is `timing.repeat`, named
`timingRepeat` here because `repeat` is a Lean keyword. -/
structure TimingRepeat where
  frequency : Option Nat

/-- `{ repeat? }`. -/
structure Timing where
  timingRepeat : Option TimingRepeat

/-- `{ doseAndRate?[], timing? }`. -/
structure DosageInstruction where
  doseAndRate : Option (List DoseAndRate)
  timing : Option Timing

/-- Medication request content: `{ medicationReference?,
dosageInstruction?[] }`. -/
structure MedicationRequestContent where
  medicationReference : Option FHIRReference
  dosageInstruction : Option (List DosageInstruction)

/-- Embeds `(value.content.medicationReference?.reference ?? "").split("/")`
from the medication-request projector. -/
def medicationReferenceParts (content : MedicationRequestContent) :
    List String :=
  jsSplit '/' ((content.medicationReference.bind FHIRReference.reference).getD "")

/-- Embeds the medication-request projector of `addUserMedicationRequests`:

```
const referenceParts = (value.content.medicationReference?.reference ?? "").split("/");
const quantity = value.content.dosageInstruction?.at(0)?.doseAndRate?.at(0)?.doseQuantity;
const frequency = value.content.dosageInstruction?.at(0)?.timing?.repeat?.frequency;
return [ value.id, referenceParts[1], referenceParts[3],
  quantity?.value?.toString() ?? "", quantity?.unit ?? "",
  frequency?.toString() ?? "" ];
```

`referenceParts[1]` / `referenceParts[3]` are unguarded indexings: out of
range they are `undefined` cells, not errors. -/
def medicationRequestRow (value : Doc MedicationRequestContent) :
    List JsCell :=
  let referenceParts := medicationReferenceParts value.content
  let quantity :=
    (((value.content.dosageInstruction.bind (fun l => l[0]?)).bind
      DosageInstruction.doseAndRate).bind (fun l => l[0]?)).bind
      DoseAndRate.doseQuantity
  let frequency :=
    (((value.content.dosageInstruction.bind (fun l => l[0]?)).bind
      DosageInstruction.timing).bind Timing.timingRepeat).bind
      TimingRepeat.frequency
  [some value.id,
   referenceParts[1]?,
   referenceParts[3]?,
   some (((quantity.bind DoseQuantity.value).map (fun n => toString n)).getD ""),
   some ((quantity.bind DoseQuantity.unit).getD ""),
   some ((frequency.map (fun n => toString n)).getD "")]

/-- `{ value?, unit? }` observation quantity. -/
structure Quantity where
  value : Option Nat
  unit : Option String

/-- `{ coding?[] }`. -/
structure CodeableConcept where
  coding : Option (List Coding)

/-- `{ code, valueQuantity? }` blood-pressure component. -/
structure ObservationComponent where
  code : CodeableConcept
  valueQuantity : Option Quantity

/-- Observation content: `{ valueQuantity?, effectiveDateTime?,
component?[] }`. -/
structure ObservationContent where
  valueQuantity : Option Quantity
  effectiveDateTime : Option JsDate
  component : Option (List ObservationComponent)

/-- Modelled from the spec: the external `LoincCode.systolicBloodPressure`
constant (the known LOINC systolic code). -/
def loincSystolicBloodPressure : String := "8480-6"

/-- Modelled from the spec: the external `LoincCode.diastolicBloodPressure`
constant (the known LOINC diastolic code). -/
def loincDiastolicBloodPressure : String := "8462-4"

/-- `value.content.component?.find((component) =>
component.code.coding?.some((coding) => coding.code === loinc))`: an absent
`coding` list makes `?.some` yield `undefined`, which is falsy. -/
def findComponent (content : ObservationContent) (loinc : String) :
    Option ObservationComponent :=
  content.component.bind (fun components =>
    components.find? (fun component =>
      ((component.code.coding.map (fun codings =>
        codings.any (fun coding => decide (coding.code = some loinc)))).getD
        false)))

/-- Embeds the blood-pressure projector branch of `addUserObservations`. -/
def bloodPressureRow (value : Doc ObservationContent) : List String :=
  let systolicComponent := findComponent value.content loincSystolicBloodPressure
  let diastolicComponent := findComponent value.content loincDiastolicBloodPressure
  [value.id,
   (((systolicComponent.bind ObservationComponent.valueQuantity).bind
     Quantity.value).map (fun n => toString n)).getD "",
   ((systolicComponent.bind ObservationComponent.valueQuantity).bind
     Quantity.unit).getD "",
   (((diastolicComponent.bind ObservationComponent.valueQuantity).bind
     Quantity.value).map (fun n => toString n)).getD "",
   ((diastolicComponent.bind ObservationComponent.valueQuantity).bind
     Quantity.unit).getD "",
   (value.content.effectiveDateTime.map JsDate.isoString).getD ""]

/-- Embeds the default projector branch of `addUserObservations`. -/
def observationDefaultRow (value : Doc ObservationContent) : List String :=
  [value.id,
   ((value.content.valueQuantity.bind Quantity.value).map
     (fun n => toString n)).getD "",
   (value.content.valueQuantity.bind Quantity.unit).getD "",
   (value.content.effectiveDateTime.map JsDate.isoString).getD ""]

/-- `{ valueCoding? }` response answer. -/
structure ResponseAnswer where
  valueCoding : Option Coding

/-- `{ answer?[] }` leaf response item. -/
structure ResponseItem where
  answer : Option (List ResponseAnswer)

/-- Questionnaire response content.  Modelled from the spec:
`leafResponseItem(linkId)` is the external model's accessor resolving a
leaf response item by link id (`leafResponseItem(linkId) → answer[]`). -/
structure QuestionnaireResponseContent where
  questionnaire : Option String
  authored : Option JsDate
  leafResponseItem : String → Option ResponseItem

/-- Modelled from the spec: the external `QuestionnaireLinkId` constants —
the KCCQ instrument URL and its fixed question link ids. -/
structure KccqLinkIds where
  url : String
  question1a : String
  question1b : String
  question1c : String
  question2 : String
  question3 : String
  question4 : String
  question5 : String
  question6 : String
  question7 : String
  question8a : String
  question8b : String
  question8c : String
  question9 : String

/-- `value.content.leafResponseItem(linkId)?.answer?.at(0)?.valueCoding?.code
?? ""` from the questionnaire-response projector. -/
def kccqAnswer (content : QuestionnaireResponseContent) (linkId : String) :
    String :=
  (((((content.leafResponseItem linkId).bind ResponseItem.answer).bind
    (fun l => l[0]?)).bind ResponseAnswer.valueCoding).bind Coding.code).getD ""

/-- Embeds the questionnaire-response projector of
`addUserQuestionnaireResponses`. -/
def questionnaireResponseRow (kccq : KccqLinkIds)
    (value : Doc QuestionnaireResponseContent) : List String :=
  [value.id,
   kccqAnswer value.content kccq.question1a,
   kccqAnswer value.content kccq.question1b,
   kccqAnswer value.content kccq.question1c,
   kccqAnswer value.content kccq.question2,
   kccqAnswer value.content kccq.question3,
   kccqAnswer value.content kccq.question4,
   kccqAnswer value.content kccq.question5,
   kccqAnswer value.content kccq.question6,
   kccqAnswer value.content kccq.question7,
   kccqAnswer value.content kccq.question8a,
   kccqAnswer value.content kccq.question8b,
   kccqAnswer value.content kccq.question8c,
   kccqAnswer value.content kccq.question9,
   (value.content.authored.map JsDate.isoString).getD ""]

/-- Symptom score content at the JS runtime level (see the section
comment). -/
structure SymptomScoreContent where
  overallScore : Option Nat
  physicalLimitsScore : Option Nat
  socialLimitsScore : Option Nat
  symptomFrequencyScore : Option Nat
  qualityOfLifeScore : Option Nat
  dizzinessScore : Option Nat
  date : Option JsDate
  questionnaireResponseId : Option String

/-- Embeds the symptom-score projector of `addUserSymptomScores`:

```
(value) => [ value.id, value.content.overallScore.toString(),
  value.content.physicalLimitsScore?.toString() ?? "", ...,
  value.content.dizzinessScore.toString(),
  value.content.date.toISOString(),
  value.content.questionnaireResponseId ?? "" ]
```

`overallScore.toString()`, `dizzinessScore.toString()` and
`date.toISOString()` are unguarded (they throw on an absent value, in JS
array-literal evaluation order: `overallScore` first); the four middle
scores and `questionnaireResponseId` are guarded. -/
def symptomScoreRow (value : Doc SymptomScoreContent) :
    Except JsError (List JsCell) := do
  let overall ← jsToString value.content.overallScore
  let dizziness ← jsToString value.content.dizzinessScore
  let dateIso ← jsToISOString value.content.date
  pure [some value.id,
    some overall,
    some ((value.content.physicalLimitsScore.map (fun n => toString n)).getD ""),
    some ((value.content.socialLimitsScore.map (fun n => toString n)).getD ""),
    some ((value.content.symptomFrequencyScore.map (fun n => toString n)).getD ""),
    some ((value.content.qualityOfLifeScore.map (fun n => toString n)).getD ""),
    some dizziness,
    some dateIso,
    some (value.content.questionnaireResponseId.getD "")]

/-- The leaf fields of a questionnaire item's row.  Accessors for the
inductive `FHIRQuestionnaireItem`. -/
def FHIRQuestionnaireItem.linkId : FHIRQuestionnaireItem → Option String
  | .mk l _ _ _ _ => l

/-- The `text` field. -/
def FHIRQuestionnaireItem.text : FHIRQuestionnaireItem → Option String
  | .mk _ t _ _ _ => t

/-- The `type` field. -/
def FHIRQuestionnaireItem.type : FHIRQuestionnaireItem → Option String
  | .mk _ _ ty _ _ => ty

/-- The `answerOption` field. -/
def FHIRQuestionnaireItem.answerOption :
    FHIRQuestionnaireItem → Option (List AnswerOption)
  | .mk _ _ _ ao _ => ao

/-- Embeds the questionnaire projector of `addQuestionnaires`:

```
(value) => {
  const options = (value.answerOption ?? [])
    .map((option) => `${option.valueCoding?.display ?? ""} (${option.valueCoding?.code ?? ""})`)
    .join("|");
  return [value.linkId ?? "", value.text ?? "", value.type ?? "", options];
}
``` -/
def questionnaireRow (value : FHIRQuestionnaireItem) : List String :=
  let options := joinSep "|" ((value.answerOption.getD []).map (fun option =>
    ((option.valueCoding.bind Coding.display).getD "") ++ " (" ++
      ((option.valueCoding.bind Coding.code).getD "") ++ ")"))
  [value.linkId.getD "", value.text.getD "", value.type.getD "", options]

/-! ## The export service

`Store` bundles the service's collaborators for one export call: the
document queries of `databaseService` / `userService` (each query's result
is the consistent snapshot the store returns during the call), the values
of the external `UserObservationCollection` enum and `QuestionnaireLinkId`
constants, and the archiver's error event (`writerError`: `some msg` when
the underlying writer emits an error during the call). -/

/-- A patient profile: only the `organization` field is read here. -/
structure PatientProfileContent where
  organization : Option String
deriving Repr, DecidableEq

/-- One named archive entry: `archiver.append(buffer, { name })` is
`(name, buffer)`; the finalized zip byte stream is abstracted as the list
of appended entries in append order. -/
abbrev ArchiveEntry := String × String

/-- The collaborators of one export call (see the section comment). -/
structure Store where
  getUser : String → Option (Doc PatientProfileContent)
  allPatients : List (Doc PatientProfileContent)
  questionnaires : List (Doc QuestionnaireContent)
  userAppointments : String → List (Doc AppointmentContent)
  userMedicationRequests : String → List (Doc MedicationRequestContent)
  userMessages : String → List (Doc MessageContent)
  userObservations : String → String → List (Doc ObservationContent)
  userQuestionnaireResponses : String → List (Doc QuestionnaireResponseContent)
  userSymptomScores : String → List (Doc SymptomScoreContent)
  observationCollections : List String
  kccq : KccqLinkIds
  writerError : Option String

/-- Modelled from the spec: the string value of the external enum case
`UserObservationCollection.bloodPressure` (the blood-pressure observation
category, which selects the distinct column schema and names the archive
entry `{userId}/bloodPressure.csv`). -/
def bloodPressureCollection : String := "bloodPressure"

/-- Embeds `addQuestionnaires`: one `questionnaire_{id}.csv` entry per
questionnaire, rows = the questionnaire's leaf items. -/
def addQuestionnaires (s : Store) : List ArchiveEntry :=
  s.questionnaires.map (fun questionnaire =>
    ("questionnaire_" ++ questionnaire.id ++ ".csv",
      createCsvString ["linkId", "text", "type", "options"]
        (questionnaireLeafItems questionnaire.content) questionnaireRow))

/-- Embeds `addUserAppointments`. -/
def addUserAppointments (s : Store) (userId : String) :
    Except JsError ArchiveEntry := do
  let buffer ← createCsvBufferJs ["id", "status", "created", "start", "end"]
    (s.userAppointments userId) appointmentRow
  pure (userId ++ "/appointments.csv", buffer)

/-- Embeds `addUserMessages`. -/
def addUserMessages (s : Store) (userId : String) : ArchiveEntry :=
  (userId ++ "/messages.csv",
    createCsvString
      ["id", "type", "title", "action", "reference", "creationDate",
        "completionDate", "dueDate"]
      (s.userMessages userId) messageRow)

/-- Embeds `addUserMedicationRequests`. -/
def addUserMedicationRequests (s : Store) (userId : String) : ArchiveEntry :=
  (userId ++ "/medicationRequests.csv",
    createCsvStringJs
      ["id", "medicationCode (RxNorm)", "drugCode (RxNorm)", "quantity",
        "quantityUnit", "frequencyPerDay"]
      (s.userMedicationRequests userId) medicationRequestRow)

/-- Embeds `addUserObservations` (the `switch` on the collection). -/
def addUserObservations (s : Store) (userId : String) (collection : String) :
    ArchiveEntry :=
  if collection = bloodPressureCollection then
    (userId ++ "/" ++ collection ++ ".csv",
      createCsvString
        ["id", "systolicValue", "systolicUnit", "diastolicValue",
          "diastolicUnit", "effectiveDateTime"]
        (s.userObservations userId collection) bloodPressureRow)
  else
    (userId ++ "/" ++ collection ++ ".csv",
      createCsvString ["id", "value", "unit", "effectiveDateTime"]
        (s.userObservations userId collection) observationDefaultRow)

/-- Embeds `addUserQuestionnaireResponses`: responses are filtered to the
KCCQ instrument by exact URL equality before projection. -/
def addUserQuestionnaireResponses (s : Store) (userId : String) :
    ArchiveEntry :=
  let kccqResponses := (s.userQuestionnaireResponses userId).filter
    (fun response => decide (response.content.questionnaire = some s.kccq.url))
  (userId ++ "/questionnaireResponses_kccq.csv",
    createCsvString
      ["id", "q1a", "q1b", "q1c", "q2", "q3", "q4", "q5", "q6", "q7", "q8a",
        "q8b", "q8c", "q9", "authored"]
      kccqResponses (questionnaireResponseRow s.kccq))

/-- Embeds `addUserSymptomScores`. -/
def addUserSymptomScores (s : Store) (userId : String) :
    Except JsError ArchiveEntry := do
  let buffer ← createCsvBufferJs
    ["id", "overallScore", "physicalLimitsScore", "socialLimitsScore",
      "symptomFrequencyScore", "qualityOfLifeScore", "dizzinessScore",
      "date", "questionnaireResponseId"]
    (s.userSymptomScores userId) symptomScoreRow
  pure (userId ++ "/symptomScores.csv", buffer)

/-- One user's `Promise.all` branch of `createPatientsZipBuffer`: the six
category entries in the array order of the source; join semantics are
wait-for-all with fail-fast propagation of a branch's throw. -/
def addUserEntries (s : Store) (userId : String) :
    Except JsError (List ArchiveEntry) := do
  let appointments ← addUserAppointments s userId
  let symptomScores ← addUserSymptomScores s userId
  pure ([appointments,
    addUserMedicationRequests s userId,
    addUserMessages s userId] ++
    (s.observationCollections.map (addUserObservations s userId)) ++
    [addUserQuestionnaireResponses s userId, symptomScores])

/-- The generator callback of `createPatientsZipBuffer`: the shared
questionnaire entries are appended first, then each user's entries in
order (users processed sequentially). -/
def createPatientsEntries (s : Store) (userIds : List String) :
    Except JsError (List ArchiveEntry) := do
  let perUser ← mapExcept (addUserEntries s) userIds
  pure (addQuestionnaires s ++ perUser.flatten)

/-- The errors an export call can surface. -/
inductive ExportError where
  | notFound (message : String)
  | jsError (e : JsError)
  | writerError (message : String)
deriving Repr, DecidableEq

/-- Embeds `createZipBuffer`:

```
return new Promise<Buffer>((resolve, reject) => {
  const archive = archiver("zip", { zlib: { level: 9 } });
  ...
  archive.on("end", () => resolve(Buffer.concat(chunks)));
  archive.on("error", (err) => reject(err));
  generate(archive).then(() => archive.finalize()).catch(reject);
});
```

A throw inside the generator rejects via `.catch(reject)`; an error emitted
by the archiver rejects via the `error` listener; only when neither occurs
does the `end` listener resolve with the concatenated buffer (abstracted as
the appended entry list). -/
def createZipBuffer (generate : Except JsError (List ArchiveEntry))
    (writerError : Option String) : Except ExportError (List ArchiveEntry) :=
  match generate with
  | .error e => .error (.jsError e)
  | .ok entries =>
    match writerError with
    | some msg => .error (.writerError msg)
    | none => .ok entries

/-- Embeds `createPatientsZipBuffer`. -/
def createPatientsZipBuffer (s : Store) (userIds : List String) :
    Except ExportError (List ArchiveEntry) :=
  createZipBuffer (createPatientsEntries s userIds) s.writerError

/-- Embeds `exportPatientDataForUser`:

```
const patient = await this.userService.getUser(userId);
if (!patient) {
  throw new https.HttpsError("not-found", `Patient with ID ${userId} not found`);
}
return this.createPatientsZipBuffer([patient.id]);
``` -/
def exportPatientDataForUser (s : Store) (userId : String) :
    Except ExportError (List ArchiveEntry) :=
  match s.getUser userId with
  | none => .error (.notFound ("Patient with ID " ++ userId ++ " not found"))
  | some patient => createPatientsZipBuffer s [patient.id]

/-- Embeds the filter of `exportPatientDataForOrganization`:
`patients.filter((patient) => patient.content.organization === organizationId)`
(strict equality; an absent organization is `undefined`, never equal to a
string). -/
def selectedPatients (s : Store) (organizationId : String) :
    List (Doc PatientProfileContent) :=
  s.allPatients.filter
    (fun patient => decide (patient.content.organization = some organizationId))

/-- Embeds `exportPatientDataForOrganization`. -/
def exportPatientDataForOrganization (s : Store) (organizationId : String) :
    Except ExportError (List ArchiveEntry) :=
  createPatientsZipBuffer s ((selectedPatients s organizationId).map Doc.id)

/-- Embeds `exportPatientDataForAll`. -/
def exportPatientDataForAll (s : Store) :
    Except ExportError (List ArchiveEntry) :=
  createPatientsZipBuffer s (s.allPatients.map Doc.id)

/-! ## Error-propagation lemmas -/

lemma except_bind_error {ε α β : Type} (e : ε) (f : α → Except ε β) :
    (Except.error e >>= f) = Except.error e := rfl

lemma except_bind_ok {ε α β : Type} (a : α) (f : α → Except ε β) :
    (Except.ok a >>= f : Except ε β) = f a := rfl

lemma except_map_error {ε α β : Type} (e : ε) (f : α → β) :
    (f <$> (Except.error e : Except ε α)) = Except.error e := rfl

lemma except_map_ok {ε α β : Type} (a : α) (f : α → β) :
    (f <$> (Except.ok a : Except ε α) : Except ε β) = Except.ok (f a) := rfl

lemma mapExcept_error_of_mem {α β : Type} (f : α → Except JsError β)
    {l : List α} {x : α} (hx : x ∈ l) (he : ∃ e, f x = .error e) :
    ∃ e, mapExcept f l = .error e := by
  induction l with
  | nil => cases hx
  | cons y ys ih =>
    rcases List.mem_cons.mp hx with rfl | hx'
    · obtain ⟨e, he⟩ := he
      exact ⟨e, by simp [mapExcept, he, except_bind_error]⟩
    · cases hfy : f y with
      | error e => exact ⟨e, by simp [mapExcept, hfy, except_bind_error]⟩
      | ok b =>
        obtain ⟨e, hrec⟩ := ih hx'
        refine ⟨e, ?_⟩
        simp [mapExcept, hfy, except_bind_ok, hrec, except_bind_error]

lemma createCsvBufferJs_error_of_mem {α : Type} (headers : List String)
    {values : List α} {row : α → Except JsError (List JsCell)} {x : α}
    (hx : x ∈ values) (he : ∃ e, row x = .error e) :
    ∃ e, createCsvBufferJs headers values row = .error e := by
  obtain ⟨e, hm⟩ := mapExcept_error_of_mem row hx he
  exact ⟨e, by simp [createCsvBufferJs, hm, except_bind_error]⟩

lemma addUserSymptomScores_error_of_mem {s : Store} {userId : String}
    {value : Doc SymptomScoreContent}
    (hv : value ∈ s.userSymptomScores userId)
    (he : ∃ e, symptomScoreRow value = .error e) :
    ∃ e, addUserSymptomScores s userId = .error e := by
  obtain ⟨e, hb⟩ := createCsvBufferJs_error_of_mem
    ["id", "overallScore", "physicalLimitsScore", "socialLimitsScore",
      "symptomFrequencyScore", "qualityOfLifeScore", "dizzinessScore",
      "date", "questionnaireResponseId"] hv he
  exact ⟨e, by
    simp [addUserSymptomScores, hb, except_bind_error, except_map_error]⟩

lemma addUserEntries_error_of_symptomScores {s : Store} {userId : String}
    (he : ∃ e, addUserSymptomScores s userId = .error e) :
    ∃ e, addUserEntries s userId = .error e := by
  cases ha : addUserAppointments s userId with
  | error e => exact ⟨e, by simp [addUserEntries, ha, except_bind_error]⟩
  | ok a =>
    obtain ⟨e, hs⟩ := he
    exact ⟨e, by simp [addUserEntries, ha, except_bind_ok, hs, except_bind_error]⟩

lemma createPatientsZipBuffer_error_of_user {s : Store} {userIds : List String}
    {userId : String} (hu : userId ∈ userIds)
    (he : ∃ e, addUserEntries s userId = .error e) :
    ∃ err, createPatientsZipBuffer s userIds = .error err := by
  obtain ⟨e, hm⟩ := mapExcept_error_of_mem (addUserEntries s) hu he
  exact ⟨.jsError e, by
    simp [createPatientsZipBuffer, createPatientsEntries, hm,
      except_bind_error, createZipBuffer]⟩

lemma symptomScoreRow_error {value : Doc SymptomScoreContent}
    (h : value.content.overallScore = none ∨
      value.content.dizzinessScore = none ∨ value.content.date = none) :
    ∃ e, symptomScoreRow value = .error e := by
  cases hov : value.content.overallScore with
  | none =>
    exact ⟨⟨"TypeError: cannot read toString of undefined"⟩, by
      simp [symptomScoreRow, jsToString, hov, except_bind_error]⟩
  | some n =>
    cases hdz : value.content.dizzinessScore with
    | none =>
      exact ⟨⟨"TypeError: cannot read toString of undefined"⟩, by
        simp [symptomScoreRow, jsToString, hov, hdz, except_bind_ok,
          except_bind_error]⟩
    | some m =>
      cases hdt : value.content.date with
      | none =>
        exact ⟨⟨"TypeError: cannot read toISOString of undefined"⟩, by
          simp [symptomScoreRow, jsToString, jsToISOString, hov, hdz, hdt,
            except_bind_ok, except_bind_error]⟩
      | some d =>
        rcases h with h | h | h <;> simp_all

lemma symptomScoreRow_ok {value : Doc SymptomScoreContent}
    (h1 : value.content.overallScore ≠ none)
    (h2 : value.content.dizzinessScore ≠ none)
    (h3 : value.content.date ≠ none) :
    ∃ cells, symptomScoreRow value = .ok cells := by
  obtain ⟨n, hov⟩ := Option.ne_none_iff_exists'.mp h1
  obtain ⟨m, hdz⟩ := Option.ne_none_iff_exists'.mp h2
  obtain ⟨d, hdt⟩ := Option.ne_none_iff_exists'.mp h3
  refine ⟨[some value.id, some (toString n),
    some ((value.content.physicalLimitsScore.map (fun k => toString k)).getD ""),
    some ((value.content.socialLimitsScore.map (fun k => toString k)).getD ""),
    some ((value.content.symptomFrequencyScore.map (fun k => toString k)).getD ""),
    some ((value.content.qualityOfLifeScore.map (fun k => toString k)).getD ""),
    some (toString m), some d.isoString,
    some (value.content.questionnaireResponseId.getD "")], ?_⟩
  simp [symptomScoreRow, jsToString, jsToISOString, hov, hdz, hdt,
    except_bind_ok, except_map_ok]

lemma appointmentRow_error {value : Doc AppointmentContent}
    (h : value.content.created = none ∨ value.content.start = none ∨
      value.content.endDate = none) :
    ∃ e, appointmentRow value = .error e := by
  cases hc : value.content.created with
  | none =>
    exact ⟨⟨"TypeError: cannot read toISOString of undefined"⟩, by
      simp [appointmentRow, jsToISOString, hc, except_bind_error]⟩
  | some c =>
    cases hs : value.content.start with
    | none =>
      exact ⟨⟨"TypeError: cannot read toISOString of undefined"⟩, by
        simp [appointmentRow, jsToISOString, hc, hs, except_bind_ok,
          except_bind_error]⟩
    | some st =>
      cases hen : value.content.endDate with
      | none =>
        exact ⟨⟨"TypeError: cannot read toISOString of undefined"⟩, by
          simp [appointmentRow, jsToISOString, hc, hs, hen, except_bind_ok,
            except_bind_error]⟩
      | some en =>
        rcases h with h | h | h <;> simp_all

lemma appointmentRow_ok {value : Doc AppointmentContent}
    (h1 : value.content.created ≠ none) (h2 : value.content.start ≠ none)
    (h3 : value.content.endDate ≠ none) :
    ∃ c1 c2 c3, appointmentRow value =
      .ok [some value.id, value.content.status, some c1, some c2, some c3] := by
  obtain ⟨c, hc⟩ := Option.ne_none_iff_exists'.mp h1
  obtain ⟨st, hs⟩ := Option.ne_none_iff_exists'.mp h2
  obtain ⟨en, hen⟩ := Option.ne_none_iff_exists'.mp h3
  exact ⟨c.isoString, st.isoString, en.isoString, by
    simp [appointmentRow, jsToISOString, hc, hs, hen, except_bind_ok]⟩

lemma createZipBuffer_not_notFound (generate : Except JsError (List ArchiveEntry))
    (writerError : Option String) (msg : String) :
    createZipBuffer generate writerError ≠ .error (.notFound msg) := by
  cases generate with
  | error e => simp [createZipBuffer]
  | ok entries => cases writerError <;> simp [createZipBuffer]

lemma createPatientsEntries_cases (s : Store) (userIds : List String) :
    createPatientsEntries s userIds =
      match mapExcept (addUserEntries s) userIds with
      | .error e => .error e
      | .ok perUser => .ok (addQuestionnaires s ++ perUser.flatten) := by
  cases hm : mapExcept (addUserEntries s) userIds <;>
    simp [createPatientsEntries, hm, except_bind_error, except_bind_ok]

/-! ## Claims C5, C6, C7, C8, C10 -/

/-- **C5.** For every medication request record, the medicationReference
string is split on `/` and the 2nd and 4th segments (indices 1 and 3)
become the medication-code and drug-code cells.  Whenever the reference has
fewer than 4 segments (a missing reference defaults to the empty string,
which splits into one empty segment), the corresponding cells of the
emitted row are empty rather than an error: the drug-code cell renders as
`""`; with fewer than 2 segments the medication-code cell renders as `""`
too; with exactly 2 segments the medication-code cell carries the 2nd
segment. -/
theorem C5_medication_reference_defensive
    (value : Doc MedicationRequestContent)
    (h : (medicationReferenceParts value.content).length < 4) :
    ((medicationRequestRow value).map
        (fun c => (escapeJsCell c).getD "")).length = 6
    ∧ ((medicationRequestRow value).map
        (fun c => (escapeJsCell c).getD ""))[2]? = some ""
    ∧ ((medicationReferenceParts value.content).length < 2 →
        ((medicationRequestRow value).map
          (fun c => (escapeJsCell c).getD ""))[1]? = some "")
    ∧ ((medicationReferenceParts value.content).length = 2 →
        ∃ seg, (medicationReferenceParts value.content)[1]? = some seg ∧
          ((medicationRequestRow value).map
            (fun c => (escapeJsCell c).getD ""))[1]? =
            some (escapeCsvField seg))
    ∧ jsCsvLine (medicationRequestRow value) =
        joinSep ";" ((medicationRequestRow value).map
          (fun c => (escapeJsCell c).getD "")) := by
  have h3 : (medicationReferenceParts value.content)[3]? = none :=
    List.getElem?_eq_none (by omega)
  refine ⟨by simp [medicationRequestRow], ?_, ?_, ?_, ?_⟩
  · simp [medicationRequestRow, escapeJsCell, h3]
  · intro hlt
    have h1 : (medicationReferenceParts value.content)[1]? = none :=
      List.getElem?_eq_none (by omega)
    simp [medicationRequestRow, escapeJsCell, h1]
  · intro heq
    have h1lt : 1 < (medicationReferenceParts value.content).length := by omega
    refine ⟨(medicationReferenceParts value.content)[1], ?_, ?_⟩
    · exact List.getElem?_eq_getElem h1lt
    · simp [medicationRequestRow, escapeJsCell,
        List.getElem?_eq_getElem h1lt]
  · simp [jsCsvLine, List.map_map]
    rfl

/-- A concrete medication request whose reference has exactly 2 segments. -/
def medExample : Doc MedicationRequestContent :=
  ⟨"med1", ⟨some ⟨some "medications/123"⟩, none⟩⟩

/-- Witness for `C5_medication_reference_defensive` at a 2-segment
reference: the medication-code cell is populated with the 2nd segment,
`"123"`. -/
theorem C5_medication_reference_defensive_witness :
    (medicationReferenceParts medExample.content).length < 4 ∧
    ∃ seg, (medicationReferenceParts medExample.content)[1]? = some seg ∧
      ((medicationRequestRow medExample).map
        (fun c => (escapeJsCell c).getD ""))[1]? = some (escapeCsvField seg) :=
  ⟨by decide,
    (C5_medication_reference_defensive medExample (by decide)).2.2.2.1
      (by decide)⟩

/-- **C6.** For every organization id and every patient set returned by the
store: (1) a patient is selected iff it is in the store's patient set and
its organization field equals the given id — exact, case-sensitive string
equality on the `Option String` field, so no partial match, no
normalization, and a patient without an organization never matches; (2) a
successful export's archive consists of the shared questionnaire tables
followed by exactly the selected users' entries, in order; (3) when no
patient matches, the export does not fail and returns an archive containing
only the shared questionnaire tables. -/
theorem C6_organization_selection (s : Store) (organizationId : String)
    (hw : s.writerError = none) :
    (∀ patient, patient ∈ selectedPatients s organizationId ↔
      patient ∈ s.allPatients ∧
        patient.content.organization = some organizationId)
    ∧ (∀ entries,
        exportPatientDataForOrganization s organizationId = .ok entries →
        ∃ perUser, mapExcept (addUserEntries s)
            ((selectedPatients s organizationId).map Doc.id) = .ok perUser ∧
          entries = addQuestionnaires s ++ perUser.flatten)
    ∧ ((∀ patient ∈ s.allPatients,
          patient.content.organization ≠ some organizationId) →
        exportPatientDataForOrganization s organizationId =
          .ok (addQuestionnaires s)) := by
  refine ⟨?_, ?_, ?_⟩
  · intro patient
    simp [selectedPatients, List.mem_filter]
  · intro entries hok
    rw [exportPatientDataForOrganization, createPatientsZipBuffer,
      createPatientsEntries_cases] at hok
    cases hm : mapExcept (addUserEntries s)
        ((selectedPatients s organizationId).map Doc.id) with
    | error e => rw [hm] at hok; simp [createZipBuffer] at hok
    | ok perUser =>
      rw [hm, hw] at hok
      simp only [createZipBuffer, Except.ok.injEq] at hok
      exact ⟨perUser, rfl, hok.symm⟩
  · intro hnone
    have hsel : selectedPatients s organizationId = [] := by
      rw [selectedPatients, List.filter_eq_nil_iff]
      intro p hp
      simp [hnone p hp]
    rw [exportPatientDataForOrganization, hsel, createPatientsZipBuffer,
      createPatientsEntries_cases]
    simp [mapExcept, createZipBuffer, hw]

/-- The KCCQ link-id constants of a concrete store (values irrelevant to
the witnessed property). -/
def kccqExample : KccqLinkIds :=
  ⟨"u", "1a", "1b", "1c", "2", "3", "4", "5", "6", "7", "8a", "8b", "8c", "9"⟩

/-- A concrete store whose only patient belongs to organization `"jhu"`. -/
def jhuStore : Store where
  getUser := fun _ => none
  allPatients := [⟨"user1", ⟨some "jhu"⟩⟩]
  questionnaires := []
  userAppointments := fun _ => []
  userMedicationRequests := fun _ => []
  userMessages := fun _ => []
  userObservations := fun _ _ => []
  userQuestionnaireResponses := fun _ => []
  userSymptomScores := fun _ => []
  observationCollections := [bloodPressureCollection, "bodyWeight"]
  kccq := kccqExample
  writerError := none

/-- Witness for `C6_organization_selection`: exporting `"stanford"` from a
store whose only patient is in `"jhu"` succeeds and contains only the
shared questionnaire tables. -/
theorem C6_organization_selection_witness :
    jhuStore.writerError = none ∧
    exportPatientDataForOrganization jhuStore "stanford" =
      .ok (addQuestionnaires jhuStore) :=
  ⟨rfl, (C6_organization_selection jhuStore "stanford" rfl).2.2 (by decide)⟩

/-- **C7.** For every user id that does not resolve to an existing patient,
`exportPatientDataForUser` fails with a `NotFound` error and produces no
archive; for every id that does resolve, it never raises `NotFound`
(whatever else the archive build does). -/
theorem C7_not_found (s : Store) (userId : String) :
    (s.getUser userId = none →
      exportPatientDataForUser s userId =
        .error (.notFound ("Patient with ID " ++ userId ++ " not found")) ∧
      ∀ entries, exportPatientDataForUser s userId ≠ .ok entries)
    ∧ (∀ patient, s.getUser userId = some patient →
        ∀ msg, exportPatientDataForUser s userId ≠
          .error (.notFound msg)) := by
  constructor
  · intro h
    constructor
    · simp [exportPatientDataForUser, h]
    · intro entries
      simp [exportPatientDataForUser, h]
  · intro patient hp msg
    rw [exportPatientDataForUser, hp]
    exact createZipBuffer_not_notFound _ _ _

/-- An empty store: no users, no documents. -/
def emptyStore : Store where
  getUser := fun _ => none
  allPatients := []
  questionnaires := []
  userAppointments := fun _ => []
  userMedicationRequests := fun _ => []
  userMessages := fun _ => []
  userObservations := fun _ _ => []
  userQuestionnaireResponses := fun _ => []
  userSymptomScores := fun _ => []
  observationCollections := []
  kccq := kccqExample
  writerError := none

/-- Witness for `C7_not_found` on a nonexistent id. -/
theorem C7_not_found_witness :
    emptyStore.getUser "ghost" = none ∧
    exportPatientDataForUser emptyStore "ghost" =
      .error (.notFound "Patient with ID ghost not found") :=
  ⟨rfl, ((C7_not_found emptyStore "ghost").1 rfl).1⟩

/-- **C8.** Any error thrown during archive generation (including a
projector exception or any other failure of a generator branch) or emitted
by the archive writer rejects the overall archive-build operation, and the
caller receives no buffer; concretely, a failed generator rejects
`createPatientsZipBuffer` with that error. -/
theorem C8_failure_aborts :
    (∀ (generate : Except JsError (List ArchiveEntry))
        (writerError : Option String),
      ((∃ e, generate = .error e) ∨ ∃ msg, writerError = some msg) →
      (∃ err, createZipBuffer generate writerError = .error err) ∧
        ∀ entries, createZipBuffer generate writerError ≠ .ok entries)
    ∧ (∀ (s : Store) (userIds : List String) (e : JsError),
        createPatientsEntries s userIds = .error e →
        createPatientsZipBuffer s userIds = .error (.jsError e)) := by
  constructor
  · intro generate writerError h
    have herr : ∃ err, createZipBuffer generate writerError = .error err := by
      rcases h with ⟨e, rfl⟩ | ⟨msg, rfl⟩
      · exact ⟨.jsError e, rfl⟩
      · cases generate with
        | error e => exact ⟨.jsError e, rfl⟩
        | ok entries => exact ⟨.writerError msg, rfl⟩
    refine ⟨herr, ?_⟩
    obtain ⟨err, heq⟩ := herr
    intro entries hok
    rw [heq] at hok
    cases hok
  · intro s userIds e he
    simp [createPatientsZipBuffer, he, createZipBuffer]

/-- Witness for `C8_failure_aborts`: a generator rejection rejects the
archive build. -/
theorem C8_failure_aborts_witness :
    ∃ err, createZipBuffer
      (Except.error ⟨"boom"⟩ : Except JsError (List ArchiveEntry)) none =
      .error err :=
  (C8_failure_aborts.1 (.error ⟨"boom"⟩) none (Or.inl ⟨⟨"boom"⟩, rfl⟩)).1

/-- A concrete appointment record missing only `status`. -/
def appointmentStatusMissing : Doc AppointmentContent :=
  ⟨"appt1",
    { status := none,
      created := some ⟨"2024-01-01T00:00:00.000Z"⟩,
      start := some ⟨"2024-01-01T01:00:00.000Z"⟩,
      endDate := some ⟨"2024-01-01T02:00:00.000Z"⟩ }⟩

/-- **C10 counterexample.**  The claim says a record missing any of the
listed required fields (for appointments: `status`, `created`, `start`,
`end`) throws at projection time instead of projecting to an empty cell.
An appointment missing only `status` refutes this: `status` is a plain
property access, so the projection succeeds and the missing status renders
as an empty cell in the emitted row. -/
theorem C10_counterexample :
    appointmentStatusMissing.content.status = none ∧
    appointmentRow appointmentStatusMissing =
      .ok [some "appt1", none, some "2024-01-01T00:00:00.000Z",
        some "2024-01-01T01:00:00.000Z", some "2024-01-01T02:00:00.000Z"] ∧
    jsCsvLine [some "appt1", none, some "2024-01-01T00:00:00.000Z",
        some "2024-01-01T01:00:00.000Z", some "2024-01-01T02:00:00.000Z"] =
      "appt1;;2024-01-01T00:00:00.000Z;2024-01-01T01:00:00.000Z;" ++
        "2024-01-01T02:00:00.000Z" :=
  ⟨rfl, rfl, rfl⟩

/-- **C10 (amended).**  The per-category projectors call methods on
required fields without guards: for symptom scores, `overallScore` and
`dizzinessScore` are read via `.toString()` and `date` via
`.toISOString()`; for appointments, `created`, `start` and `end` are read
via `.toISOString()`.  A record missing one of *those* fields throws at
projection time (and, by the archive failure semantics, any such throw
aborts the whole export); with them present the projection succeeds.  The
appointment `status` field, by contrast, is a plain property access: a
record missing it still projects, the missing value rendering as an empty
cell. -/
theorem C10_unguarded_method_calls :
    (∀ value : Doc SymptomScoreContent,
      ((value.content.overallScore = none ∨
          value.content.dizzinessScore = none ∨
          value.content.date = none) →
        ∃ e, symptomScoreRow value = .error e) ∧
      ((value.content.overallScore ≠ none ∧
          value.content.dizzinessScore ≠ none ∧
          value.content.date ≠ none) →
        ∃ cells, symptomScoreRow value = .ok cells))
    ∧ (∀ value : Doc AppointmentContent,
        ((value.content.created = none ∨ value.content.start = none ∨
            value.content.endDate = none) →
          ∃ e, appointmentRow value = .error e) ∧
        ((value.content.created ≠ none ∧ value.content.start ≠ none ∧
            value.content.endDate ≠ none) →
          ∃ c1 c2 c3, appointmentRow value =
            .ok [some value.id, value.content.status, some c1, some c2,
              some c3] ∧
            (value.content.status = none →
              (([some value.id, value.content.status, some c1, some c2,
                some c3] : List JsCell).map
                  (fun c => (escapeJsCell c).getD ""))[1]? = some "")))
    ∧ (∀ (s : Store) (userIds : List String) (userId : String)
          (value : Doc SymptomScoreContent), userId ∈ userIds →
        value ∈ s.userSymptomScores userId →
        value.content.overallScore = none →
        ∃ err, createPatientsZipBuffer s userIds = .error err) := by
  refine ⟨?_, ?_, ?_⟩
  · intro value
    exact ⟨symptomScoreRow_error,
      fun ⟨a, b, c⟩ => symptomScoreRow_ok a b c⟩
  · intro value
    refine ⟨appointmentRow_error, fun ⟨a, b, c⟩ => ?_⟩
    obtain ⟨c1, c2, c3, hok⟩ := appointmentRow_ok a b c
    refine ⟨c1, c2, c3, hok, fun hst => ?_⟩
    simp [escapeJsCell, hst]
  · intro s userIds userId value hu hv hov
    exact createPatientsZipBuffer_error_of_user hu
      (addUserEntries_error_of_symptomScores
        (addUserSymptomScores_error_of_mem hv
          (symptomScoreRow_error (Or.inl hov))))

/-- A concrete symptom score record missing only `overallScore`. -/
def symptomScoreMissingOverall : Doc SymptomScoreContent :=
  ⟨"score1",
    { overallScore := none, physicalLimitsScore := some 55,
      socialLimitsScore := none, symptomFrequencyScore := none,
      qualityOfLifeScore := none, dizzinessScore := some 3,
      date := some ⟨"2024-02-02T00:00:00.000Z"⟩,
      questionnaireResponseId := none }⟩

/-- Witness for `C10_unguarded_method_calls`: a symptom score missing
`overallScore` throws at projection time. -/
theorem C10_unguarded_method_calls_witness :
    symptomScoreMissingOverall.content.overallScore = none ∧
    ∃ e, symptomScoreRow symptomScoreMissingOverall = .error e :=
  ⟨rfl, (C10_unguarded_method_calls.1 symptomScoreMissingOverall).1
    (Or.inl rfl)⟩

end ExportService

